import Mathlib

/-!
Shallow embedding of `main_task_1.py`, a command-line contact manager:
validated value types (`Name`, `Phone`, `Birthday`), `Record`,
`AddressBook` with its upcoming-birthday query, and the CLI handlers
(`add_contact`, `change_phone`, `add_birthday`, `show_birthday`).

Python specifics modelled explicitly:
* `datetime.today()` returns the current calendar date *plus* a
  time-of-day component; subtracting two `datetime`s yields a
  `timedelta` whose `.days` field is the floor of the difference in
  days.  The clock is passed as a pair: a calendar date `today` and
  the microseconds since midnight `tod`.
* `datetime.strptime(value, "%d.%m.%Y")` matches the CPython
  `_strptime` regular expression for that format and then validates
  the date by constructing a `datetime` (proleptic Gregorian,
  year 1..9999).
* `str.isdigit` is true for the Unicode digit characters, a strictly
  larger class than the ASCII decimal digits.
* `dict` preserves insertion order; assigning to an existing key keeps
  its position.  A `dict` is embedded as an association list.
* Exceptions are embedded as `Except String` / `Option`; the
  `input_error` decorator turns the exception message into the
  handler's returned string.
-/

namespace Task1

/-! ### Calendar dates, as in Python's `datetime` -/

/-- A calendar date, the payload of a Python `datetime` at midnight
(the time members are all zero for every `datetime` this program
stores). -/
structure Date where
  year : Nat
  month : Nat
  day : Nat
deriving Repr, DecidableEq

/-- Gregorian leap-year rule, as in `datetime`: divisible by 4 and not
by 100, or divisible by 400. -/
def isLeapYear (y : Nat) : Bool :=
  (y % 4 == 0 && y % 100 != 0) || y % 400 == 0

/-- Number of days of month `m` (1..12) of year `y`, as in
`datetime`'s `_days_in_month`. Out-of-range months give 0. -/
def daysInMonth (y m : Nat) : Nat :=
  match m with
  | 1 => 31
  | 2 => if isLeapYear y then 29 else 28
  | 3 => 31
  | 4 => 30
  | 5 => 31
  | 6 => 30
  | 7 => 31
  | 8 => 31
  | 9 => 30
  | 10 => 31
  | 11 => 30
  | 12 => 31
  | _ => 0

/-- Days in year `y` before the first day of month `m`, as in
`datetime`'s `_days_before_month`. -/
def daysBeforeMonth (y : Nat) : Nat → Nat
  | 0 => 0
  | n + 1 => daysBeforeMonth y n + daysInMonth y n

/-- Days before January 1 of year `y` in the proleptic Gregorian
calendar, as in `datetime`'s `_days_before_year`. -/
def daysBeforeYear (y : Nat) : Nat :=
  365 * (y - 1) + (y - 1) / 4 - (y - 1) / 100 + (y - 1) / 400

/-- `datetime.toordinal`: day number in the proleptic Gregorian
calendar, with day 1 = January 1 of year 1. -/
def toordinal (d : Date) : Nat :=
  daysBeforeYear d.year + daysBeforeMonth d.year d.month + d.day

/-- The range and day-of-month checks performed by the `datetime`
constructor (`MINYEAR = 1`, `MAXYEAR = 9999`). -/
def Date.valid (d : Date) : Bool :=
  1 ≤ d.year && d.year ≤ 9999 && 1 ≤ d.month && d.month ≤ 12 &&
    1 ≤ d.day && d.day ≤ daysInMonth d.year d.month

/-- `datetime(year, month, day)` and `datetime.replace`: construction
validates the fields and raises `ValueError` (here `none`) on an
invalid combination, e.g. February 29 of a non-leap year. -/
def mkDate (y m d : Nat) : Option Date :=
  if (Date.mk y m d).valid then some (Date.mk y m d) else none

/-- Microseconds per day, the resolution of a Python `timedelta`. -/
def usPerDay : Int := 86400000000

/-- `(birthday_this_year - today).days` where `birthday_this_year` is
the `datetime` `bty` at midnight and `today` is the `datetime` with
calendar date `today` and time-of-day `tod` microseconds:
`timedelta.days` is the floor of the signed difference in days. -/
def deltaDays (bty today : Date) (tod : Nat) : Int :=
  Int.fdiv (((toordinal bty : Int) - (toordinal today : Int)) * usPerDay - (tod : Int)) usPerDay

/-! ### `str.isdigit` and the `Phone` validator -/

/-- Python `str.isdigit` on one character.  Per the CPython Unicode
database it holds exactly for characters with the digit property:
all ASCII decimal digits, and further non-ASCII characters of which
this development enumerates the Latin-1 superscript digits
`¹` (U+00B9), `²` (U+00B2), `³` (U+00B3) — the only non-ASCII digits
appearing in any string of this file. -/
def pyCharIsDigit (c : Char) : Bool :=
  c.isDigit || c == '¹' || c == '²' || c == '³'

/-- Python `str.isdigit`: true when the string is non-empty and every
character is a digit. -/
def pyStrIsDigit (s : String) : Bool :=
  !s.isEmpty && s.data.all pyCharIsDigit

/-- The exception message of the `Phone` constructor. -/
def phoneErrMsg : String := "Phone number must be 10 digits."

/-- `Phone.__init__`: raises `ValueError` (here `none`) unless
`value.isdigit()` and `len(value) == 10`; on success stores `value`
verbatim. -/
def Phone.init (value : String) : Option String :=
  if !pyStrIsDigit value || value.length != 10 then none else some value

/-! ### `strptime(value, "%d.%m.%Y")` -/

/-- Numeric value of a digit character. -/
def toDig (c : Char) : Nat := c.toNat - 48

/-- The matches of `_strptime`'s day group `3[01]|[12]\d|0[1-9]|[1-9]`
at the head of `cs`, in the regex's backtracking order: each entry is
the parsed day and the remaining input. -/
def dayMatches (cs : List Char) : List (Nat × List Char) :=
  (match cs with
   | '3' :: c2 :: rest => if c2 == '0' || c2 == '1' then [(30 + toDig c2, rest)] else []
   | _ => []) ++
  (match cs with
   | c1 :: c2 :: rest =>
     if (c1 == '1' || c1 == '2') && c2.isDigit then [(10 * toDig c1 + toDig c2, rest)] else []
   | _ => []) ++
  (match cs with
   | '0' :: c2 :: rest => if c2.isDigit && c2 != '0' then [(toDig c2, rest)] else []
   | _ => []) ++
  (match cs with
   | c1 :: rest => if c1.isDigit && c1 != '0' then [(toDig c1, rest)] else []
   | _ => [])

/-- The matches of `_strptime`'s month group `1[0-2]|0[1-9]|[1-9]` at
the head of `cs`, in the regex's backtracking order. -/
def monthMatches (cs : List Char) : List (Nat × List Char) :=
  (match cs with
   | '1' :: c2 :: rest =>
     if c2 == '0' || c2 == '1' || c2 == '2' then [(10 + toDig c2, rest)] else []
   | _ => []) ++
  (match cs with
   | '0' :: c2 :: rest => if c2.isDigit && c2 != '0' then [(toDig c2, rest)] else []
   | _ => []) ++
  (match cs with
   | c1 :: rest => if c1.isDigit && c1 != '0' then [(toDig c1, rest)] else []
   | _ => [])

/-- The match of `_strptime`'s year group `\d\d\d\d` (exactly four
digits) at the head of `cs`. -/
def year4 (cs : List Char) : Option (Nat × List Char) :=
  match cs with
  | c1 :: c2 :: c3 :: c4 :: rest =>
    if c1.isDigit && c2.isDigit && c3.isDigit && c4.isDigit then
      some (1000 * toDig c1 + 100 * toDig c2 + 10 * toDig c3 + toDig c4, rest)
    else none
  | _ => none

/-- The first match (in backtracking order) of the full `_strptime`
regular expression for `"%d.%m.%Y"` — day group, literal dot, month
group, literal dot, year group — against a prefix of `cs`; returns
the captured day, month, year and the unmatched remainder. -/
def strptimeSearch (cs : List Char) : Option (Nat × Nat × Nat × List Char) :=
  (dayMatches cs).findSome? fun dp =>
    match dp.2 with
    | '.' :: cs₂ =>
      (monthMatches cs₂).findSome? fun mp =>
        match mp.2 with
        | '.' :: cs₃ =>
          match year4 cs₃ with
          | some (y, rest) => some (dp.1, mp.1, y, rest)
          | none => none
        | _ => none
    | _ => none

/-- The exception message of the `Birthday` constructor. -/
def birthdayErrMsg : String := "Invalid date format. Use DD.MM.YYYY"

/-- `Birthday.__init__`: `datetime.strptime(value, "%d.%m.%Y")`.
`_strptime` raises (here `none`) when the regex does not match, when
unconverted data remains after the match, or when the matched fields
do not form a valid `datetime`; on success the stored value is the
parsed date at midnight. -/
def Birthday.init (value : String) : Option Date :=
  match strptimeSearch value.data with
  | some (d, m, y, rest) => if rest.isEmpty then mkDate y m d else none
  | none => none

/-! ### `Record` -/

/-- One contact: a `Name` (stored verbatim, never failing), a list of
`Phone` values (each a validated 10-digit string), an optional
`Birthday`. -/
structure Record where
  name : String
  phones : List String
  birthday : Option Date
deriving Repr, DecidableEq

/-- `Record.__init__(name)`: empty phone list, no birthday. -/
def Record.new (name : String) : Record :=
  Record.mk name [] none

/-- `Record.add_phone`: constructs a `Phone` (which may raise) and
appends it; on failure the phone list is untouched. -/
def Record.add_phone (r : Record) (phone : String) : Except String Record :=
  match Phone.init phone with
  | some p => .ok { r with phones := r.phones ++ [p] }
  | none => .error phoneErrMsg

/-- `Record.add_birthday`: constructs a `Birthday` (which may raise)
and assigns it, replacing any previous one; on failure the stored
birthday is untouched. -/
def Record.add_birthday (r : Record) (birthday : String) : Except String Record :=
  match Birthday.init birthday with
  | some b => .ok { r with birthday := some b }
  | none => .error birthdayErrMsg

/-- `"%02d"` rendering of `n < 100`, as `strftime`'s `%d` and `%m`. -/
def pad2 (n : Nat) : String :=
  String.mk [Nat.digitChar (n / 10), Nat.digitChar (n % 10)]

/-- `"%04d"` rendering of `n < 10000`, as `strftime`'s `%Y` (year with
century, zero-padded to four digits per the CPython documentation). -/
def pad4 (n : Nat) : String :=
  String.mk [Nat.digitChar (n / 1000), Nat.digitChar (n / 100 % 10),
    Nat.digitChar (n / 10 % 10), Nat.digitChar (n % 10)]

/-- `strftime("%d.%m.%Y")` of a midnight `datetime`. -/
def fmtDate (d : Date) : String :=
  pad2 d.day ++ "." ++ pad2 d.month ++ "." ++ pad4 d.year

/-- `Record.show_birthday`: format the stored birthday, or report that
none is set. -/
def Record.show_birthday (r : Record) : String :=
  match r.birthday with
  | some b => fmtDate b
  | none => "No birthday set."

/-! ### `AddressBook` -/

/-- `self.records`, a `dict[str, Record]` in insertion order. -/
structure AddressBook where
  records : List (String × Record)
deriving Repr, DecidableEq

/-- `dict.__setitem__`: replace the value in place when the key is
present (keeping its position), append otherwise. -/
def dictInsert : List (String × Record) → String → Record → List (String × Record)
  | [], k, v => [(k, v)]
  | kv :: rest, k, v => if kv.1 = k then (k, v) :: rest else kv :: dictInsert rest k v

/-- `AddressBook.add_record`: `self.records[record.name.value] = record`. -/
def AddressBook.add_record (book : AddressBook) (record : Record) : AddressBook :=
  AddressBook.mk (dictInsert book.records record.name record)

/-- `AddressBook.find`: `self.records.get(name)`. -/
def AddressBook.find (book : AddressBook) (name : String) : Option Record :=
  (book.records.find? fun kv => kv.1 == name).map fun kv => kv.2

/-- Update the value of the first entry with the given key, leaving
everything else in place. -/
def modifyFirstEntries (name : String) (f : Record → Record) :
    List (String × Record) → List (String × Record)
  | [] => []
  | kv :: rest => if kv.1 = name then (kv.1, f kv.2) :: rest else kv :: modifyFirstEntries name f rest

/-- In-place mutation of the record object `find` aliases: update the
value of the first entry with the given key. -/
def AddressBook.modifyFirst (book : AddressBook) (name : String) (f : Record → Record) :
    AddressBook :=
  AddressBook.mk (modifyFirstEntries name f book.records)

/-- The exception message of `datetime.replace` when the day does not
exist in the target month (e.g. February 29 of a non-leap year). -/
def dayRangeErrMsg : String := "day is out of range for month"

/-- The loop body of `get_upcoming_birthdays` over the remaining
records: skip records without a birthday; for the others build
`birthday_this_year = birthday.replace(year=today.year)` (which may
raise) and collect the record's name when
`0 <= (birthday_this_year - today).days < 7`.  An exception raised at
any record aborts the whole query. -/
def upcomingAux (today : Date) (tod : Nat) : List (String × Record) → Except String (List String)
  | [] => .ok []
  | kv :: rest =>
    match kv.2.birthday with
    | none => upcomingAux today tod rest
    | some b =>
      match mkDate today.year b.month b.day with
      | none => .error dayRangeErrMsg
      | some bty =>
        match upcomingAux today tod rest with
        | .error e => .error e
        | .ok names =>
          if 0 ≤ deltaDays bty today tod ∧ deltaDays bty today tod < 7 then
            .ok (kv.2.name :: names)
          else
            .ok names

/-- `AddressBook.get_upcoming_birthdays`, with the clock
(`datetime.today()`) passed explicitly as the calendar date `today`
and the time-of-day `tod` in microseconds since midnight. -/
def AddressBook.get_upcoming_birthdays (book : AddressBook) (today : Date) (tod : Nat) :
    Except String (List String) :=
  upcomingAux today tod book.records

/-! ### CLI handlers (each wrapped by `input_error`, so an exception
becomes the returned message and the mutations already performed
stay) -/

/-- The `ValueError` message of `name, phone, *_ = args` when `args`
has fewer than two elements. -/
def unpackAtLeast2Msg (got : Nat) : String :=
  "not enough values to unpack (expected at least 2, got " ++ toString got ++ ")"

/-- The `ValueError` message of unpacking `args` into exactly `n`
names when `args` is too short. -/
def unpackExactShortMsg (expected got : Nat) : String :=
  "not enough values to unpack (expected " ++ toString expected ++ ", got " ++ toString got ++ ")"

/-- The `ValueError` message of unpacking `args` into exactly `n`
names when `args` is too long. -/
def unpackExactLongMsg (expected : Nat) : String :=
  "too many values to unpack (expected " ++ toString expected ++ ")"

/-- `add_contact(args, book)`: find or create the record for `name`,
then append the phone when `phone` is non-empty.  Returns the printed
message and the book after the call (a newly created record stays in
the book even when the phone is then rejected). -/
def add_contact (args : List String) (book : AddressBook) : String × AddressBook :=
  match args with
  | name :: phone :: _ =>
    match book.find name with
    | some _ =>
      if phone = "" then ("Contact updated.", book)
      else
        match Phone.init phone with
        | some p =>
          ("Contact updated.", book.modifyFirst name fun r => { r with phones := r.phones ++ [p] })
        | none => (phoneErrMsg, book)
    | none =>
      let book₁ := book.add_record (Record.new name)
      if phone = "" then ("Contact added.", book₁)
      else
        match Phone.init phone with
        | some p =>
          ("Contact added.", book₁.modifyFirst name fun r => { r with phones := r.phones ++ [p] })
        | none => (phoneErrMsg, book₁)
  | _ => (unpackAtLeast2Msg args.length, book)

/-- `change_phone(args, book)`: on the record for `name`, remove the
first phone equal to `old_phone` and append a `Phone` built from
`new_phone`; the removal precedes the construction, so a rejected
`new_phone` leaves the list without `old_phone`. -/
def change_phone (args : List String) (book : AddressBook) : String × AddressBook :=
  match args with
  | [name, old_phone, new_phone] =>
    match book.find name with
    | some record =>
      if record.phones.contains old_phone then
        let book₁ := book.modifyFirst name fun r => { r with phones := r.phones.erase old_phone }
        match Phone.init new_phone with
        | some p =>
          ("Phone number updated.",
            book₁.modifyFirst name fun r => { r with phones := r.phones ++ [p] })
        | none => (phoneErrMsg, book₁)
      else ("Old phone number not found.", book)
    | none => ("Contact not found.", book)
  | _ =>
    (if args.length < 3 then unpackExactShortMsg 3 args.length else unpackExactLongMsg 3, book)

/-- `add_birthday(args, book)` (the handler): set the birthday on the
record for `name`, or report the contact missing. -/
def add_birthday (args : List String) (book : AddressBook) : String × AddressBook :=
  match args with
  | [name, birthday] =>
    match book.find name with
    | some _ =>
      match Birthday.init birthday with
      | some b => ("Birthday added.", book.modifyFirst name fun r => { r with birthday := some b })
      | none => (birthdayErrMsg, book)
    | none => ("Contact not found.", book)
  | _ =>
    (if args.length < 2 then unpackExactShortMsg 2 args.length else unpackExactLongMsg 2, book)

/-- `show_birthday(args, book)` (the handler): pure query. -/
def show_birthday (args : List String) (book : AddressBook) : String :=
  match args with
  | [name] =>
    match book.find name with
    | some record => record.show_birthday
    | none => "Contact not found."
  | _ =>
    if args.length < 1 then unpackExactShortMsg 1 args.length else unpackExactLongMsg 1

/-! ## Helper lemmas -/

/-- After `dictInsert`, the key maps to the inserted value. -/
theorem dictInsert_find_self (l : List (String × Record)) (k : String) (v : Record) :
    ((dictInsert l k v).find? fun kv => kv.1 == k) = some (k, v) := by
  induction l with
  | nil => simp [dictInsert]
  | cons kv rest ih =>
    by_cases h : kv.1 = k
    · simp [dictInsert, h]
    · simp [dictInsert, h, ih]

/-- `dictInsert` does not disturb lookups of other keys. -/
theorem dictInsert_find_ne (l : List (String × Record)) (k : String) (v : Record)
    (n : String) (h : n ≠ k) :
    ((dictInsert l k v).find? fun kv => kv.1 == n) = l.find? fun kv => kv.1 == n := by
  induction l with
  | nil =>
    simp only [dictInsert, List.find?]
    have : (k == n) = false := by
      simp only [beq_eq_false_iff_ne, ne_eq]
      exact fun hh => h hh.symm
    simp [this]
  | cons kv rest ih =>
    by_cases hk : kv.1 = k
    · subst hk
      have hn2 : (kv.1 == n) = false := by
        simp only [beq_eq_false_iff_ne, ne_eq]
        exact fun hh => h hh.symm
      simp [dictInsert, List.find?, hn2]
    · have hd : dictInsert (kv :: rest) k v = kv :: dictInsert rest k v := by
        simp [dictInsert, hk]
      by_cases hn : kv.1 = n
      · rw [hd]
        simp [List.find?, hn]
      · have hf : (kv.1 == n) = false := by simp [hn]
        rw [hd]
        simp [List.find?, hf, ih]

/-- Lookup after `modifyFirstEntries` at the modified key. -/
theorem modifyFirstEntries_find (l : List (String × Record)) (name : String)
    (f : Record → Record) :
    ((modifyFirstEntries name f l).find? fun kv => kv.1 == name) =
      (l.find? fun kv => kv.1 == name).map fun kv => (kv.1, f kv.2) := by
  induction l with
  | nil => simp [modifyFirstEntries]
  | cons kv rest ih =>
    by_cases h : kv.1 = name
    · simp [modifyFirstEntries, h]
    · simp [modifyFirstEntries, h, ih]

/-- `AddressBook.find` after `modifyFirst` at the modified name. -/
theorem find_modifyFirst (book : AddressBook) (name : String) (f : Record → Record)
    (r : Record) (h : book.find name = some r) :
    (book.modifyFirst name f).find name = some (f r) := by
  unfold AddressBook.find at h ⊢
  unfold AddressBook.modifyFirst
  rw [modifyFirstEntries_find]
  obtain ⟨kv, hkv, hr⟩ := Option.map_eq_some'.mp h
  simp [hkv, hr]

/-- A successful `Phone` construction certifies the validity test and
returns the argument itself. -/
theorem Phone.init_eq_some (value p : String) (h : Phone.init value = some p) :
    p = value ∧ pyStrIsDigit value = true ∧ value.length = 10 := by
  unfold Phone.init at h
  by_cases h1 : pyStrIsDigit value
  all_goals by_cases h2 : value.length = 10
  all_goals simp [h1, h2] at h
  simp_all

/-- A record with a birthday that does not exist in the current year
makes the whole query raise `day is out of range for month`. -/
theorem upcomingAux_error (today : Date) (tod : Nat) (l : List (String × Record))
    (h : ∃ kv ∈ l, ∃ b, kv.2.birthday = some b ∧ mkDate today.year b.month b.day = none) :
    upcomingAux today tod l = .error dayRangeErrMsg := by
  induction l with
  | nil => simp at h
  | cons kv rest ih =>
    obtain ⟨kv', hmem, b', hb', hrepl⟩ := h
    rcases List.mem_cons.mp hmem with heq | htail
    · subst heq
      simp [upcomingAux, hb', hrepl]
    · have htl := ih ⟨kv', htail, b', hb', hrepl⟩
      cases hbd : kv.2.birthday with
      | none =>
        simp only [upcomingAux, hbd]
        exact htl
      | some b =>
        cases hmk : mkDate today.year b.month b.day with
        | none => simp only [upcomingAux, hbd, hmk]
        | some bty => simp only [upcomingAux, hbd, hmk, htl]

/-- Unfolding of the `datetime` validity test. -/
theorem Date.valid_iff (d : Date) : d.valid = true ↔
    1 ≤ d.year ∧ d.year ≤ 9999 ∧ 1 ≤ d.month ∧ d.month ≤ 12 ∧
      1 ≤ d.day ∧ d.day ≤ daysInMonth d.year d.month := by
  simp [Date.valid, and_assoc]

/-- A successful `mkDate` returns exactly the requested valid date. -/
theorem mkDate_eq_some (y m d : Nat) (x : Date) (h : mkDate y m d = some x) :
    x = Date.mk y m d ∧ x.valid = true := by
  unfold mkDate at h
  by_cases hv : (Date.mk y m d).valid = true
  · rw [if_pos hv] at h
    cases h
    exact ⟨rfl, hv⟩
  · rw [if_neg hv] at h
    cases h

/-- `daysBeforeMonth` is monotone in the month. -/
theorem daysBeforeMonth_mono (y : Nat) {m1 m2 : Nat} (h : m1 ≤ m2) :
    daysBeforeMonth y m1 ≤ daysBeforeMonth y m2 := by
  induction m2 with
  | zero => simp [Nat.le_zero.mp h]
  | succ n ih =>
    by_cases h2 : m1 = n + 1
    · simp [h2]
    · have h3 : m1 ≤ n := by omega
      calc daysBeforeMonth y m1 ≤ daysBeforeMonth y n := ih h3
        _ ≤ daysBeforeMonth y (n + 1) := Nat.le_add_right _ _

/-- `toordinal` is strictly monotone across two valid dates of the
same year, ordered as Python's `datetime` comparison orders them. -/
theorem toordinal_lt_same_year (y m1 d1 m2 d2 : Nat)
    (hv1 : (Date.mk y m1 d1).valid = true) (hv2 : (Date.mk y m2 d2).valid = true)
    (hlex : m1 < m2 ∨ (m1 = m2 ∧ d1 < d2)) :
    toordinal (Date.mk y m1 d1) < toordinal (Date.mk y m2 d2) := by
  have h1 := (Date.valid_iff _).mp hv1
  have h2 := (Date.valid_iff _).mp hv2
  unfold toordinal
  simp only at h1 h2 ⊢
  rcases hlex with hm | ⟨hm, hd⟩
  · have hstep : daysBeforeMonth y (m1 + 1) = daysBeforeMonth y m1 + daysInMonth y m1 := rfl
    have hmono := daysBeforeMonth_mono y (show m1 + 1 ≤ m2 by omega)
    omega
  · subst hm
    omega

/-- A name in a successful result of the upcoming-birthdays loop comes
from a record of the list whose current-year birthday exists and
whose `timedelta.days` against the clock is nonnegative. -/
theorem upcomingAux_mem (today : Date) (tod : Nat) (l : List (String × Record))
    (names : List String) (n : String)
    (hok : upcomingAux today tod l = .ok names) (hn : n ∈ names) :
    ∃ kv ∈ l, kv.2.name = n ∧ ∃ b bty, kv.2.birthday = some b ∧
      mkDate today.year b.month b.day = some bty ∧ 0 ≤ deltaDays bty today tod := by
  induction l generalizing names with
  | nil =>
    simp only [upcomingAux, Except.ok.injEq] at hok
    subst hok
    simp at hn
  | cons kv rest ih =>
    cases hbd : kv.2.birthday with
    | none =>
      simp only [upcomingAux, hbd] at hok
      obtain ⟨kv', hmem, hrest⟩ := ih _ hok hn
      exact ⟨kv', List.mem_cons_of_mem kv hmem, hrest⟩
    | some b =>
      cases hmk : mkDate today.year b.month b.day with
      | none => simp [upcomingAux, hbd, hmk] at hok
      | some bty =>
        cases hrest : upcomingAux today tod rest with
        | error e => simp [upcomingAux, hbd, hmk, hrest] at hok
        | ok names' =>
          simp only [upcomingAux, hbd, hmk, hrest] at hok
          by_cases hcond : 0 ≤ deltaDays bty today tod ∧ deltaDays bty today tod < 7
          · rw [if_pos hcond, Except.ok.injEq] at hok
            subst hok
            rcases List.mem_cons.mp hn with hn1 | hn2
            · exact ⟨kv, List.mem_cons_self kv rest, hn1.symm, b, bty, hbd, hmk, hcond.1⟩
            · obtain ⟨kv', hmem, hres⟩ := ih names' hrest hn2
              exact ⟨kv', List.mem_cons_of_mem kv hmem, hres⟩
          · rw [if_neg hcond, Except.ok.injEq] at hok
            subst hok
            obtain ⟨kv', hmem, hres⟩ := ih _ hrest hn
            exact ⟨kv', List.mem_cons_of_mem kv hmem, hres⟩

/-- In a list with no duplicate keys, entries with equal keys are the
same entry. -/
theorem eq_of_key_eq {l : List (String × Record)} (hnodup : (l.map Prod.fst).Nodup)
    {x y : String × Record} (hx : x ∈ l) (hy : y ∈ l) (hk : x.1 = y.1) : x = y := by
  induction l with
  | nil => simp at hx
  | cons kv rest ih =>
    simp only [List.map_cons, List.nodup_cons] at hnodup
    rcases List.mem_cons.mp hx with hx1 | hx2 <;> rcases List.mem_cons.mp hy with hy1 | hy2
    · rw [hx1, hy1]
    · exfalso
      have hm : y.1 ∈ List.map Prod.fst rest := List.mem_map_of_mem Prod.fst hy2
      rw [← hk, hx1] at hm
      exact hnodup.1 hm
    · exfalso
      have hm : x.1 ∈ List.map Prod.fst rest := List.mem_map_of_mem Prod.fst hx2
      rw [hk, hy1] at hm
      exact hnodup.1 hm
    · exact ih hnodup.2 hx2 hy2

/-- A nonnegative `timedelta.days` between a midnight `datetime` and
the clock forces the midnight date to be on or after the clock's
date. -/
theorem toordinal_le_of_delta_nonneg (bty today : Date) (tod : Nat)
    (h : 0 ≤ deltaDays bty today tod) : toordinal today ≤ toordinal bty := by
  unfold deltaDays at h
  have hμ : (0:Int) < usPerDay := by norm_num [usPerDay]
  rw [Int.fdiv_eq_ediv _ (le_of_lt hμ)] at h
  have hnum : 0 ≤ ((toordinal bty : Int) - (toordinal today : Int)) * usPerDay - (tod : Int) := by
    by_contra hneg
    push_neg at hneg
    exact absurd h (not_le.mpr (Int.ediv_neg' hneg hμ))
  have ht : (0:Int) ≤ (tod : Int) := Int.ofNat_nonneg tod
  have hd : (0:Int) ≤ (toordinal bty : Int) - (toordinal today : Int) := by nlinarith
  have hle := sub_nonneg.mp hd
  exact_mod_cast hle

/-- Characters are determined by their code points. -/
theorem char_toNat_inj (a b : Char) (h : a.toNat = b.toNat) : a = b := by
  apply Char.ext
  apply UInt32.ext
  simpa [Char.toNat] using h

/-- Code point of a decimal digit character. -/
theorem digitChar_toNat (k : Nat) (h : k < 10) : (Nat.digitChar k).toNat = 48 + k := by
  interval_cases k <;> rfl

/-- Decimal digit characters pass `Char.isDigit`. -/
theorem digitChar_isDigit (k : Nat) (h : k < 10) : (Nat.digitChar k).isDigit = true := by
  interval_cases k <;> rfl

/-- Code-point bounds of an ASCII digit character. -/
theorem isDigit_toNat_bounds (c : Char) (h : c.isDigit = true) :
    48 ≤ c.toNat ∧ c.toNat ≤ 57 := by
  simp [Char.isDigit] at h
  exact ⟨h.1, h.2⟩

/-- The numeric value of an ASCII digit character is below ten. -/
theorem toDig_lt_ten (c : Char) (h : c.isDigit = true) : toDig c < 10 := by
  obtain ⟨h1, h2⟩ := isDigit_toNat_bounds c h
  unfold toDig
  omega

/-- `Nat.digitChar` inverts `toDig` on ASCII digit characters. -/
theorem digitChar_toDig (c : Char) (h : c.isDigit = true) : Nat.digitChar (toDig c) = c := by
  obtain ⟨h1, h2⟩ := isDigit_toNat_bounds c h
  apply char_toNat_inj
  rw [digitChar_toNat (toDig c) (toDig_lt_ten c h)]
  unfold toDig
  omega

/-- `toDig` inverts `Nat.digitChar` on digit values. -/
theorem toDig_digitChar (k : Nat) (h : k < 10) : toDig (Nat.digitChar k) = k := by
  unfold toDig
  rw [digitChar_toNat k h]
  omega

/-- No month has more than 31 days. -/
theorem daysInMonth_le (y m : Nat) : daysInMonth y m ≤ 31 := by
  unfold daysInMonth
  split
  all_goals try omega
  split
  all_goals omega

/-- On the two-digit rendering of a day value, the first alternative of
`_strptime`'s day group that succeeds captures the whole two digits. -/
theorem dayMatches_head (d : Nat) (rest : List Char) (h1 : 1 ≤ d) (h2 : d ≤ 31) :
    ∃ tl, dayMatches (Nat.digitChar (d / 10) :: Nat.digitChar (d % 10) :: rest) =
      (d, rest) :: tl := by
  interval_cases d <;> exact ⟨_, rfl⟩

/-- On the two-digit rendering of a month value, the first alternative
of `_strptime`'s month group that succeeds captures both digits. -/
theorem monthMatches_head (m : Nat) (rest : List Char) (h1 : 1 ≤ m) (h2 : m ≤ 12) :
    ∃ tl, monthMatches (Nat.digitChar (m / 10) :: Nat.digitChar (m % 10) :: rest) =
      (m, rest) :: tl := by
  interval_cases m <;> exact ⟨_, rfl⟩

/-- The year group parses the four-digit rendering of `y ≤ 9999` back
to `y`. -/
theorem year4_digits (y : Nat) (rest : List Char) (h : y ≤ 9999) :
    year4 (Nat.digitChar (y / 1000) :: Nat.digitChar (y / 100 % 10) ::
      Nat.digitChar (y / 10 % 10) :: Nat.digitChar (y % 10) :: rest) = some (y, rest) := by
  have b1 : y / 1000 < 10 := by omega
  have b2 : y / 100 % 10 < 10 := Nat.mod_lt _ (by norm_num)
  have b3 : y / 10 % 10 < 10 := Nat.mod_lt _ (by norm_num)
  have b4 : y % 10 < 10 := Nat.mod_lt _ (by norm_num)
  simp [year4, digitChar_isDigit _ b1, digitChar_isDigit _ b2, digitChar_isDigit _ b3,
    digitChar_isDigit _ b4, toDig_digitChar _ b1, toDig_digitChar _ b2, toDig_digitChar _ b3,
    toDig_digitChar _ b4]
  omega

/-- The character data of `strftime("%d.%m.%Y")`. -/
theorem fmtDate_data (y m d : Nat) :
    (fmtDate (Date.mk y m d)).data =
      Nat.digitChar (d / 10) :: Nat.digitChar (d % 10) :: '.' ::
      Nat.digitChar (m / 10) :: Nat.digitChar (m % 10) :: '.' ::
      Nat.digitChar (y / 1000) :: Nat.digitChar (y / 100 % 10) ::
      Nat.digitChar (y / 10 % 10) :: Nat.digitChar (y % 10) :: [] := rfl

/-- `strptime` recovers the fields from the canonical `DD.MM.YYYY`
rendering of a valid date, consuming the whole string. -/
theorem strptimeSearch_fmtDate (y m d : Nat) (hv : (Date.mk y m d).valid = true) :
    strptimeSearch (fmtDate (Date.mk y m d)).data = some (d, m, y, []) := by
  obtain ⟨hy1, hy2, hm1, hm2, hd1, hd2⟩ := (Date.valid_iff _).mp hv
  have hd31 : d ≤ 31 := le_trans hd2 (daysInMonth_le y m)
  rw [fmtDate_data]
  obtain ⟨tl1, hday⟩ := dayMatches_head d
    ('.' :: Nat.digitChar (m / 10) :: Nat.digitChar (m % 10) :: '.' ::
      Nat.digitChar (y / 1000) :: Nat.digitChar (y / 100 % 10) ::
      Nat.digitChar (y / 10 % 10) :: Nat.digitChar (y % 10) :: []) hd1 hd31
  obtain ⟨tl2, hmonth⟩ := monthMatches_head m
    ('.' :: Nat.digitChar (y / 1000) :: Nat.digitChar (y / 100 % 10) ::
      Nat.digitChar (y / 10 % 10) :: Nat.digitChar (y % 10) :: []) hm1 hm2
  unfold strptimeSearch
  rw [hday, List.findSome?_cons]
  simp only [hmonth, List.findSome?_cons, year4_digits y [] hy2]

/-- `Birthday` construction succeeds on the canonical rendering of a
valid date and stores that date. -/
theorem Birthday.init_fmtDate (y m d : Nat) (hv : (Date.mk y m d).valid = true) :
    Birthday.init (fmtDate (Date.mk y m d)) = some (Date.mk y m d) := by
  unfold Birthday.init
  rw [strptimeSearch_fmtDate y m d hv]
  simp [mkDate, hv]

/-- Every string of shape `DD.MM.YYYY` (digit characters and dots) is
the canonical rendering of the date its digits denote. -/
theorem string_pattern_eq_fmtDate (a1 a2 b1 b2 c1 c2 c3 c4 : Char)
    (ha1 : a1.isDigit = true) (ha2 : a2.isDigit = true)
    (hb1 : b1.isDigit = true) (hb2 : b2.isDigit = true)
    (hc1 : c1.isDigit = true) (hc2 : c2.isDigit = true)
    (hc3 : c3.isDigit = true) (hc4 : c4.isDigit = true) :
    String.mk [a1, a2, '.', b1, b2, '.', c1, c2, c3, c4] =
      fmtDate (Date.mk (1000 * toDig c1 + 100 * toDig c2 + 10 * toDig c3 + toDig c4)
        (10 * toDig b1 + toDig b2) (10 * toDig a1 + toDig a2)) := by
  have ta1 := toDig_lt_ten a1 ha1
  have ta2 := toDig_lt_ten a2 ha2
  have tb1 := toDig_lt_ten b1 hb1
  have tb2 := toDig_lt_ten b2 hb2
  have tc1 := toDig_lt_ten c1 hc1
  have tc2 := toDig_lt_ten c2 hc2
  have tc3 := toDig_lt_ten c3 hc3
  have tc4 := toDig_lt_ten c4 hc4
  have hlist : [a1, a2, '.', b1, b2, '.', c1, c2, c3, c4] =
      (fmtDate (Date.mk (1000 * toDig c1 + 100 * toDig c2 + 10 * toDig c3 + toDig c4)
        (10 * toDig b1 + toDig b2) (10 * toDig a1 + toDig a2))).data := by
    rw [fmtDate_data]
    rw [show (10 * toDig a1 + toDig a2) / 10 = toDig a1 by omega]
    rw [show (10 * toDig a1 + toDig a2) % 10 = toDig a2 by omega]
    rw [show (10 * toDig b1 + toDig b2) / 10 = toDig b1 by omega]
    rw [show (10 * toDig b1 + toDig b2) % 10 = toDig b2 by omega]
    rw [show (1000 * toDig c1 + 100 * toDig c2 + 10 * toDig c3 + toDig c4) / 1000 = toDig c1
      by omega]
    rw [show (1000 * toDig c1 + 100 * toDig c2 + 10 * toDig c3 + toDig c4) / 100 % 10 = toDig c2
      by omega]
    rw [show (1000 * toDig c1 + 100 * toDig c2 + 10 * toDig c3 + toDig c4) / 10 % 10 = toDig c3
      by omega]
    rw [show (1000 * toDig c1 + 100 * toDig c2 + 10 * toDig c3 + toDig c4) % 10 = toDig c4
      by omega]
    rw [digitChar_toDig a1 ha1, digitChar_toDig a2 ha2, digitChar_toDig b1 hb1,
      digitChar_toDig b2 hb2, digitChar_toDig c1 hc1, digitChar_toDig c2 hc2,
      digitChar_toDig c3 hc3, digitChar_toDig c4 hc4]
  rw [hlist]

/-! ## Claims -/

/-- Claim C1 is violated by the code: `get_upcoming_birthdays` builds
`today` with `datetime.today()`, which carries the current time of
day, while the stored birthdays are midnight `datetime`s.  With the
clock at noon on 2024-06-10 a contact whose birthday is `10.06.1990`
has `(birthday_this_year - today).days = -1` (the claim's Δ is `0`)
and is excluded; the same query at exactly midnight returns the
contact, matching the claim.  So the inclusion window agrees with the
claimed `0 <= D - today < 7` only when the clock reads exactly
midnight. -/
theorem claim_C1_same_day_excluded_at_noon :
    (AddressBook.mk [("Alice", Record.mk "Alice" []
        (some (Date.mk 1990 6 10)))]).get_upcoming_birthdays
        (Date.mk 2024 6 10) 43200000000 = .ok [] ∧
    (AddressBook.mk [("Alice", Record.mk "Alice" []
        (some (Date.mk 1990 6 10)))]).get_upcoming_birthdays
        (Date.mk 2024 6 10) 0 = .ok ["Alice"] := by
  exact ⟨rfl, rfl⟩

/-- Claim C2: in a well-formed book (entries keyed by their record's
name, no duplicate keys), a record whose birthday mapped to the
current year gives a date strictly before today's calendar date —
Python's `datetime` order, i.e. lexicographic on month and day since
the years agree — is excluded from a successful
`get_upcoming_birthdays` result, whatever the time of day; the
birthday is never rolled forward into the next year, so this also
covers birthdays within 7 days across the year boundary. -/
theorem claim_C2_past_birthday_excluded (book : AddressBook) (today : Date) (tod : Nat)
    (kv : String × Record) (b bty : Date) (l : List String)
    (hkey : ∀ x ∈ book.records, x.1 = x.2.name)
    (hnodup : (book.records.map Prod.fst).Nodup)
    (hkv : kv ∈ book.records) (hb : kv.2.birthday = some b)
    (hrepl : mkDate today.year b.month b.day = some bty)
    (htoday : today.valid = true)
    (hbefore : bty.month < today.month ∨ (bty.month = today.month ∧ bty.day < today.day))
    (hok : book.get_upcoming_birthdays today tod = .ok l) :
    kv.2.name ∉ l := by
  intro hmem
  obtain ⟨kv', hkv', hname, b', bty', hb', hrepl', hdelta⟩ :=
    upcomingAux_mem today tod book.records l kv.2.name hok hmem
  have hkeq : kv'.1 = kv.1 := by
    rw [hkey kv' hkv', hkey kv hkv, hname]
  have hsame : kv' = kv := eq_of_key_eq hnodup hkv' hkv hkeq
  subst hsame
  rw [hb] at hb'
  cases hb'
  rw [hrepl] at hrepl'
  cases hrepl'
  obtain ⟨hbty_eq, hbty_valid⟩ := mkDate_eq_some _ _ _ _ hrepl
  have hge : toordinal today ≤ toordinal bty := toordinal_le_of_delta_nonneg bty today tod hdelta
  have heta : Date.mk today.year today.month today.day = today := rfl
  have hlt : toordinal bty < toordinal today := by
    rw [hbty_eq, ← heta]
    apply toordinal_lt_same_year
    · rw [← hbty_eq]
      exact hbty_valid
    · rw [heta]
      exact htoday
    · rw [hbty_eq] at hbefore
      exact hbefore
  omega

/-- Witness for C2: birthday January 2 queried on December 30 — only
three days ahead on the calendar, yet excluded, since the code maps
the birthday to the current year and never rolls it forward. -/
theorem claim_C2_witness :
    ("Jan", Record.mk "Jan" [] (some (Date.mk 1990 1 2))).2.name ∉ ([] : List String) := by
  apply claim_C2_past_birthday_excluded
    (AddressBook.mk [("Jan", Record.mk "Jan" [] (some (Date.mk 1990 1 2)))])
    (Date.mk 2024 12 30) 43200000000
    ("Jan", Record.mk "Jan" [] (some (Date.mk 1990 1 2)))
    (Date.mk 1990 1 2) (Date.mk 2024 1 2) []
  · intro x hx
    simp at hx
    rw [hx]
  · simp
  · simp
  · rfl
  · rfl
  · decide
  · left
    decide
  · rfl

/-- Claim C3: with a phone that passes validation, the CLI `add`
handler appends to the existing record's phone list (the list grows,
nothing is reset) and answers `"Contact updated."`; for a new name it
creates the record, adds it to the book, appends the phone and
answers `"Contact added."`. -/
theorem claim_C3_add_contact (book : AddressBook) (name phone : String) (rest : List String)
    (hp : Phone.init phone = some phone) :
    (∀ r, book.find name = some r →
      add_contact (name :: phone :: rest) book =
        ("Contact updated.", book.modifyFirst name
          fun rr => { rr with phones := rr.phones ++ [phone] }) ∧
      (add_contact (name :: phone :: rest) book).2.find name =
        some (Record.mk r.name (r.phones ++ [phone]) r.birthday)) ∧
    (book.find name = none →
      add_contact (name :: phone :: rest) book =
        ("Contact added.", (book.add_record (Record.new name)).modifyFirst name
          fun rr => { rr with phones := rr.phones ++ [phone] }) ∧
      (add_contact (name :: phone :: rest) book).2.find name =
        some (Record.mk name [phone] none)) := by
  have hne : phone ≠ "" := by
    intro h0
    have := (Phone.init_eq_some phone phone hp).2.2
    rw [h0] at this
    simp at this
  constructor
  · intro r hfind
    have h1 : add_contact (name :: phone :: rest) book =
        ("Contact updated.", book.modifyFirst name
          fun rr => { rr with phones := rr.phones ++ [phone] }) := by
      simp [add_contact, hfind, hne, hp]
    refine ⟨h1, ?_⟩
    rw [h1]
    exact find_modifyFirst book name _ r hfind
  · intro hfind
    have h1 : add_contact (name :: phone :: rest) book =
        ("Contact added.", (book.add_record (Record.new name)).modifyFirst name
          fun rr => { rr with phones := rr.phones ++ [phone] }) := by
      simp [add_contact, hfind, hne, hp]
    refine ⟨h1, ?_⟩
    rw [h1]
    have hfound : (book.add_record (Record.new name)).find name = some (Record.new name) := by
      show (List.find? (fun kv => kv.1 == name)
          (dictInsert book.records name (Record.new name))).map (fun kv => kv.2) =
        some (Record.new name)
      rw [dictInsert_find_self]
      rfl
    have := find_modifyFirst (book.add_record (Record.new name)) name
      (fun rr => { rr with phones := rr.phones ++ [phone] }) (Record.new name) hfound
    rw [this]
    rfl

/-- Witness for C3: adding the same name twice with valid phones first
creates then appends. -/
theorem claim_C3_witness :
    (add_contact ["Alice", "0123456789"] (AddressBook.mk [])).2.find "Alice" =
      some (Record.mk "Alice" ["0123456789"] none) ∧
    (add_contact ["Alice", "1112223344"]
        (AddressBook.mk [("Alice", Record.mk "Alice" ["0123456789"] none)])).1 =
      "Contact updated." ∧
    (add_contact ["Alice", "1112223344"]
        (AddressBook.mk [("Alice", Record.mk "Alice" ["0123456789"] none)])).2.find "Alice" =
      some (Record.mk "Alice" ["0123456789", "1112223344"] none) := by
  have hnew := (claim_C3_add_contact (AddressBook.mk []) "Alice" "0123456789" [] (by decide)).2
    (by rfl)
  have hupd := (claim_C3_add_contact
      (AddressBook.mk [("Alice", Record.mk "Alice" ["0123456789"] none)])
      "Alice" "1112223344" [] (by decide)).1
    (Record.mk "Alice" ["0123456789"] none) (by rfl)
  refine ⟨hnew.2, ?_, hupd.2⟩
  rw [hupd.1]

/-- Claim C4 as stated is false: `str.isdigit` accepts more than the
ASCII decimal digits, so `Phone` construction succeeds on ten copies
of the superscript digit `²` (U+00B2), a string with no ASCII digit
in it (`Char.isDigit` is the ASCII-decimal-digit test). -/
theorem claim_C4_counterexample :
    (Phone.init "²²²²²²²²²²").isSome = true ∧
    ("²²²²²²²²²²" : String).length = 10 ∧
    ("²²²²²²²²²²" : String).data.all Char.isDigit = false := by
  decide

/-- Claim C4 (amended): `Phone` construction succeeds if and only if
the value has length 10 and passes Python's `str.isdigit` test — a
strictly larger class than the ASCII decimal digits — and on success
the raw string is stored verbatim; every ASCII-digit string of
length 10 is accepted, and every string of length ≠ 10 or failing
`isdigit` is rejected. -/
theorem claim_C4_phone_validation (value : String) :
    ((Phone.init value).isSome ↔ pyStrIsDigit value = true ∧ value.length = 10) ∧
    (∀ p, Phone.init value = some p → p = value) := by
  constructor
  · unfold Phone.init
    by_cases h1 : pyStrIsDigit value <;> by_cases h2 : value.length = 10 <;> simp [h1, h2]
  · intro p hp
    exact (Phone.init_eq_some value p hp).1

/-- Witness for C4 (amended) at `"0123456789"`. -/
theorem claim_C4_witness :
    (Phone.init "0123456789").isSome = true ∧ ("0123456789" : String) = "0123456789" := by
  have h := claim_C4_phone_validation "0123456789"
  exact ⟨h.1.mpr (by decide), h.2 "0123456789" (by decide)⟩

/-- Claim C6: `Record.add_birthday` with an invalid string raises the
`ValidationError` and (the assignment never having happened) leaves
the record as it was; with a valid date string it overwrites the
stored birthday, keeping name and phones. -/
theorem claim_C6_add_birthday (r : Record) (s : String) :
    (Birthday.init s = none → r.add_birthday s = .error birthdayErrMsg) ∧
    (∀ b, Birthday.init s = some b →
      r.add_birthday s = .ok (Record.mk r.name r.phones (some b))) := by
  constructor
  · intro h
    simp [Record.add_birthday, h]
  · intro b h
    simp [Record.add_birthday, h]

/-- Witness for C6: a malformed date is rejected and a valid one
replaces the previously stored birthday. -/
theorem claim_C6_witness :
    (Record.mk "Alice" ["0123456789"] (some (Date.mk 1990 6 10))).add_birthday "31.02.2024" =
      .error birthdayErrMsg ∧
    (Record.mk "Alice" ["0123456789"] (some (Date.mk 1990 6 10))).add_birthday "02.01.2000" =
      .ok (Record.mk "Alice" ["0123456789"] (some (Date.mk 2000 1 2))) := by
  have h := claim_C6_add_birthday (Record.mk "Alice" ["0123456789"] (some (Date.mk 1990 6 10)))
  exact ⟨(h "31.02.2024").1 (by decide), (h "02.01.2000").2 (Date.mk 2000 1 2) (by decide)⟩

/-- Claim C7: `add_record` keys the entry by the record's name, never
fails, overwrites any previous record under that key in full (lookup
afterwards yields exactly the new record) and touches no other key;
`find` is total, returning the record on an exact key match and
`none` exactly when the name is absent. -/
theorem claim_C7_add_record_find (book : AddressBook) (r : Record) (n : String) :
    (book.add_record r).find r.name = some r ∧
    (n ≠ r.name → (book.add_record r).find n = book.find n) ∧
    (book.find n = none ↔ ∀ kv ∈ book.records, kv.1 ≠ n) := by
  refine ⟨?_, ?_, ?_⟩
  · unfold AddressBook.find AddressBook.add_record
    rw [dictInsert_find_self]
    rfl
  · intro hne
    unfold AddressBook.find AddressBook.add_record
    rw [dictInsert_find_ne _ _ _ _ hne]
  · unfold AddressBook.find
    simp [List.find?_eq_none]

/-- Witness for C7 on a concrete one-record book. -/
theorem claim_C7_witness :
    (((AddressBook.mk []).add_record (Record.new "Alice")).find "Alice" =
      some (Record.new "Alice")) ∧
    (((AddressBook.mk []).add_record (Record.new "Alice")).find "Bob" =
      (AddressBook.mk []).find "Bob") ∧
    ((AddressBook.mk []).find "Bob" = none) := by
  have h := claim_C7_add_record_find (AddressBook.mk []) (Record.new "Alice") "Bob"
  exact ⟨h.1, h.2.1 (by decide), h.2.2.mpr (by simp)⟩

/-- Claim C8: `change` with an `old_phone` that is not in the found
contact's phone list returns `"Old phone number not found."` and
returns the book unchanged. -/
theorem claim_C8_change_missing_old (book : AddressBook) (name old_phone new_phone : String)
    (r : Record) (hfind : book.find name = some r)
    (hold : r.phones.contains old_phone = false) :
    change_phone [name, old_phone, new_phone] book = ("Old phone number not found.", book) := by
  have hmem : old_phone ∉ r.phones := by simpa using hold
  simp [change_phone, hfind, hmem]

/-- Witness for C8 on a concrete book. -/
theorem claim_C8_witness :
    change_phone ["Alice", "9999999999", "1112223344"]
        (AddressBook.mk [("Alice", Record.mk "Alice" ["0123456789"] none)]) =
      ("Old phone number not found.",
        AddressBook.mk [("Alice", Record.mk "Alice" ["0123456789"] none)]) := by
  exact claim_C8_change_missing_old _ "Alice" "9999999999" "1112223344"
    (Record.mk "Alice" ["0123456789"] none) (by decide) (by decide)

/-- Claim C9: a stored February 29 birthday makes
`get_upcoming_birthdays` raise the `datetime.replace` failure
`day is out of range for month` whenever the current year is not a
leap year — the query returns no list and nothing skips the record. -/
theorem claim_C9_leap_day (book : AddressBook) (today : Date) (tod : Nat)
    (kv : String × Record) (b : Date)
    (hkv : kv ∈ book.records) (hb : kv.2.birthday = some b)
    (hm : b.month = 2) (hd : b.day = 29) (hleap : isLeapYear today.year = false) :
    book.get_upcoming_birthdays today tod = .error dayRangeErrMsg := by
  apply upcomingAux_error
  refine ⟨kv, hkv, b, hb, ?_⟩
  simp [mkDate, Date.valid, hm, hd, daysInMonth, hleap]

/-- Witness for C9: birthday 29.02.2020 queried in 2023. -/
theorem claim_C9_witness :
    (AddressBook.mk [("Leap", Record.mk "Leap" []
        (some (Date.mk 2020 2 29)))]).get_upcoming_birthdays
        (Date.mk 2023 6 10) 43200000000 = .error dayRangeErrMsg := by
  exact claim_C9_leap_day _ (Date.mk 2023 6 10) 43200000000
    ("Leap", Record.mk "Leap" [] (some (Date.mk 2020 2 29))) (Date.mk 2020 2 29)
    (by simp) (by decide) (by decide) (by decide) (by decide)

/-- Claim C10: when `old_phone` is present and `new_phone` fails
`Phone` validation, the handler returns the validation message and
the book in which `old_phone` has already been removed from the
contact: the occurrence count of `old_phone` dropped by one and the
count of `new_phone` did not grow — the replacement is not atomic. -/
theorem claim_C10_change_not_atomic (book : AddressBook) (name old_phone new_phone : String)
    (r : Record) (hfind : book.find name = some r)
    (hold : r.phones.contains old_phone = true)
    (hnew : Phone.init new_phone = none) :
    change_phone [name, old_phone, new_phone] book =
      (phoneErrMsg, book.modifyFirst name
        fun rr => { rr with phones := rr.phones.erase old_phone }) ∧
    (change_phone [name, old_phone, new_phone] book).2.find name =
      some (Record.mk r.name (r.phones.erase old_phone) r.birthday) ∧
    (r.phones.erase old_phone).count old_phone = r.phones.count old_phone - 1 ∧
    (r.phones.erase old_phone).count new_phone ≤ r.phones.count new_phone := by
  have h1 : change_phone [name, old_phone, new_phone] book =
      (phoneErrMsg, book.modifyFirst name
        fun rr => { rr with phones := rr.phones.erase old_phone }) := by
    have hmem : old_phone ∈ r.phones := by simpa using hold
    simp [change_phone, hfind, hmem, hnew]
  refine ⟨h1, ?_, List.count_erase_self old_phone r.phones, ?_⟩
  · rw [h1]
    exact find_modifyFirst book name _ r hfind
  · exact (List.erase_sublist old_phone r.phones).count_le new_phone

/-- Witness for C10 on a concrete book: the old phone is gone, the
invalid new phone was never added. -/
theorem claim_C10_witness :
    change_phone ["Alice", "0123456789", "123"]
        (AddressBook.mk [("Alice", Record.mk "Alice" ["0123456789"] none)]) =
      (phoneErrMsg,
        (AddressBook.mk [("Alice", Record.mk "Alice" ["0123456789"] none)]).modifyFirst "Alice"
          fun rr => { rr with phones := rr.phones.erase "0123456789" }) ∧
    (change_phone ["Alice", "0123456789", "123"]
        (AddressBook.mk [("Alice", Record.mk "Alice" ["0123456789"] none)])).2.find "Alice" =
      some (Record.mk "Alice" [] none) := by
  have h := claim_C10_change_not_atomic
    (AddressBook.mk [("Alice", Record.mk "Alice" ["0123456789"] none)])
    "Alice" "0123456789" "123" (Record.mk "Alice" ["0123456789"] none)
    (by decide) (by decide) (by decide)
  exact ⟨h.1, h.2.1⟩

/-- Claim C5: every string matching the pattern `DD.MM.YYYY` — digit
characters in positions day `a1 a2`, month `b1 b2`, year
`c1 c2 c3 c4`, with literal dots between — that denotes a real
calendar date is accepted by `Birthday` construction, and storing it
in a record and querying `show_birthday` returns exactly the original
string. -/
theorem claim_C5_roundtrip (a1 a2 b1 b2 c1 c2 c3 c4 : Char) (r : Record)
    (ha1 : a1.isDigit = true) (ha2 : a2.isDigit = true)
    (hb1 : b1.isDigit = true) (hb2 : b2.isDigit = true)
    (hc1 : c1.isDigit = true) (hc2 : c2.isDigit = true)
    (hc3 : c3.isDigit = true) (hc4 : c4.isDigit = true)
    (hreal : (Date.mk (1000 * toDig c1 + 100 * toDig c2 + 10 * toDig c3 + toDig c4)
      (10 * toDig b1 + toDig b2) (10 * toDig a1 + toDig a2)).valid = true) :
    r.add_birthday (String.mk [a1, a2, '.', b1, b2, '.', c1, c2, c3, c4]) =
      .ok (Record.mk r.name r.phones (some (Date.mk
        (1000 * toDig c1 + 100 * toDig c2 + 10 * toDig c3 + toDig c4)
        (10 * toDig b1 + toDig b2) (10 * toDig a1 + toDig a2)))) ∧
    (Record.mk r.name r.phones (some (Date.mk
        (1000 * toDig c1 + 100 * toDig c2 + 10 * toDig c3 + toDig c4)
        (10 * toDig b1 + toDig b2) (10 * toDig a1 + toDig a2)))).show_birthday =
      String.mk [a1, a2, '.', b1, b2, '.', c1, c2, c3, c4] := by
  rw [string_pattern_eq_fmtDate a1 a2 b1 b2 c1 c2 c3 c4 ha1 ha2 hb1 hb2 hc1 hc2 hc3 hc4]
  constructor
  · unfold Record.add_birthday
    rw [Birthday.init_fmtDate _ _ _ hreal]
  · unfold Record.show_birthday
    rfl

/-- Witness for C5: `"10.06.1990"` parses, is stored, and is printed
back verbatim. -/
theorem claim_C5_witness :
    (Record.new "Alice").add_birthday "10.06.1990" =
      .ok (Record.mk "Alice" [] (some (Date.mk 1990 6 10))) ∧
    (Record.mk "Alice" [] (some (Date.mk 1990 6 10))).show_birthday = "10.06.1990" := by
  have h := claim_C5_roundtrip '1' '0' '0' '6' '1' '9' '9' '0' (Record.new "Alice")
    rfl rfl rfl rfl rfl rfl rfl rfl (by decide)
  exact h

end Task1
